import Mathlib

/-!
Shallow embedding of the LinkedScout core (src/linkedscout) and proofs about it.

The embedding follows the Python source:
* `utils/rate_limiter.py` — the adaptive rate limiter (Pacing Governor),
* `models/search.py` — search criteria and query-parameter serialization,
* `models/job.py` — the job-posting record and its dict round-trip,
* `scraper/parser.py` — remote-flag resolution and per-document dedup,
* `scraper/client.py` — the per-page retry loop and the sort/truncate step.

Python floats are modelled as rationals, Python ints as integers.
Wall-clock time (time.monotonic, asyncio.sleep) is not modelled; `acquire()`
only reads the clock and stamps `_last_request`, so on the delay/success
fields it is the identity.
-/

namespace LinkedScout

/-- State of `RateLimiter` (utils/rate_limiter.py): the four constructor
parameters plus the two mutable fields `_current_delay` and
`_consecutive_successes`.  The `_last_request` timestamp and the asyncio lock
are wall-clock / concurrency artefacts and carry no information for the
delay-evolution claims, so they are omitted from the state. -/
structure RLState where
  min_delay : ℚ
  backoff_multiplier : ℚ
  max_delay : ℚ
  reset_after : ℤ
  current_delay : ℚ
  consecutive_successes : ℤ
deriving DecidableEq, Repr

/-- `RateLimiter.__init__` body: plain attribute assignments,
`_current_delay` starts at `min_delay` and the success counter at zero. -/
def mkRateLimiter (min_delay backoff_multiplier max_delay : ℚ)
    (reset_after : ℤ) : RLState :=
  { min_delay := min_delay
    backoff_multiplier := backoff_multiplier
    max_delay := max_delay
    reset_after := reset_after
    current_delay := min_delay
    consecutive_successes := 0 }

/-- `RateLimiter.__init__` as a fallible constructor: the Python body contains
no validation and no raise statement, so it always succeeds. -/
def rateLimiterInit (min_delay backoff_multiplier max_delay : ℚ)
    (reset_after : ℤ) : Except String RLState :=
  .ok (mkRateLimiter min_delay backoff_multiplier max_delay reset_after)

/-- `RateLimiter.increase_backoff`: multiply the current delay by the
multiplier, cap at `max_delay`, zero the success counter. -/
def increase_backoff (s : RLState) : RLState :=
  { s with
    current_delay := min (s.current_delay * s.backoff_multiplier) s.max_delay
    consecutive_successes := 0 }

/-- `RateLimiter.reset_backoff`: restore the minimum delay, zero the counter. -/
def reset_backoff (s : RLState) : RLState :=
  { s with current_delay := s.min_delay, consecutive_successes := 0 }

/-- `RateLimiter.record_success`: increment the counter; once it reaches
`reset_after`, reset the backoff. -/
def record_success (s : RLState) : RLState :=
  let s' := { s with consecutive_successes := s.consecutive_successes + 1 }
  if s'.consecutive_successes ≥ s'.reset_after then reset_backoff s' else s'

/-- The four public operations of the rate limiter.  `acquire` sleeps and
stamps `_last_request` but leaves the delay and the counter untouched. -/
inductive RLOp where
  | acquire
  | increase
  | record
  | reset
deriving DecidableEq, Repr

/-- Apply one operation to the modelled state. -/
def applyOp (s : RLState) : RLOp → RLState
  | .acquire => s
  | .increase => increase_backoff s
  | .record => record_success s
  | .reset => reset_backoff s

/-- Apply a sequence of operations, left to right. -/
def applyOps (s : RLState) (ops : List RLOp) : RLState :=
  ops.foldl applyOp s

/-- `TimeFilter` (models/search.py): time window for the search. -/
inductive TimeFilter where
  | past24h
  | pastWeek
  | pastMonth
  | anyTime
deriving DecidableEq, Repr

/-- The upstream value of each `TimeFilter` member (`ANY_TIME` is `""`). -/
def TimeFilter.value : TimeFilter → String
  | .past24h => "r86400"
  | .pastWeek => "r604800"
  | .pastMonth => "r2592000"
  | .anyTime => ""

/-- `WorkModel` (models/search.py): work mode. -/
inductive WorkModel where
  | onSite
  | remote
  | hybrid
deriving DecidableEq, Repr

/-- The upstream value of each `WorkModel` member. -/
def WorkModel.value : WorkModel → String
  | .onSite => "1"
  | .remote => "2"
  | .hybrid => "3"

/-- `JobType` (models/search.py): employment type. -/
inductive JobType where
  | fullTime
  | partTime
  | contract
  | internship
  | temporary
  | volunteer
deriving DecidableEq, Repr

/-- The upstream value of each `JobType` member. -/
def JobType.value : JobType → String
  | .fullTime => "F"
  | .partTime => "P"
  | .contract => "C"
  | .internship => "I"
  | .temporary => "T"
  | .volunteer => "V"

/-- `SearchCriteria` (models/search.py): frozen pydantic model.  Work modes
and job types are lists, as in the source. -/
structure SearchCriteria where
  keywords : String
  location : String := ""
  time_filter : TimeFilter := .pastWeek
  work_models : List WorkModel := []
  job_types : List JobType := []
  max_results : Nat := 100
deriving DecidableEq, Repr

/-- Python's `",".join(parts)`. -/
def joinComma : List String → String
  | [] => ""
  | [a] => a
  | a :: rest => a ++ "," ++ joinComma rest

/-- `SearchCriteria.to_params`: the query-parameter dict, as an ordered list
of key/value pairs (all keys are distinct).  A dimension is emitted only when
its Python truthiness check passes: non-empty `location`, `time_filter`
different from `ANY_TIME`, non-empty `work_models` / `job_types` lists. -/
def SearchCriteria.to_params (c : SearchCriteria) : List (String × String) :=
  [("keywords", c.keywords)]
    ++ (if c.location ≠ "" then [("location", c.location)] else [])
    ++ (if c.time_filter ≠ .anyTime then [("f_TPR", c.time_filter.value)] else [])
    ++ (if c.work_models ≠ [] then
          [("f_WT", joinComma (c.work_models.map WorkModel.value))] else [])
    ++ (if c.job_types ≠ [] then
          [("f_JT", joinComma (c.job_types.map JobType.value))] else [])

/-- Character-list version of Python's `pat in s`: does `pat` occur as a
contiguous substring? -/
def beginsWith : List Char → List Char → Bool
  | [], _ => true
  | _ :: _, [] => false
  | p :: ps, c :: cs => p == c && beginsWith ps cs

/-- Substring occurrence test used to model `"remote" in location.lower()`. -/
def hasSub (pat : List Char) : List Char → Bool
  | [] => pat.isEmpty
  | c :: cs => beginsWith pat (c :: cs) || hasSub pat cs

/-- The character list of Python's `location.lower()` (each character
lowercased; identical to `String.toLower` but structurally recursive so that
it evaluates inside the kernel). -/
def pyLower (s : String) : List Char :=
  s.data.map Char.toLower

/-- The guard `criteria and criteria.work_models == [WorkModel.REMOTE]` of
`_check_remote`. -/
def criteriaRemoteOnly : Option SearchCriteria → Bool
  | some c => c.work_models = [WorkModel.remote]
  | none => false

/-- `HTMLParser._check_remote` (scraper/parser.py).  The markup badge lookup
(`css_first` over the four fixed selectors) is abstracted as the boolean
`badge`; `location` is the extracted location text.  The branch order follows
the source: trusted remote-only criteria first, then location text, then the
badge, else false. -/
def check_remote (criteria : Option SearchCriteria) (location : String)
    (badge : Bool) : Bool :=
  if criteriaRemoteOnly criteria then
    true
  else if hasSub "remote".data (pyLower location) then
    true
  else if badge then
    true
  else
    false

/-- Python datetimes modelled as a non-negative tick count (microseconds
since `datetime.min`, hence `ℕ`: Python datetimes are bounded below).
`datetime.timestamp()` subtracts the 1970 epoch offset, so it can be
negative.  Python datetime objects are always truthy. -/
abbrev DateTime := ℕ

/-- Microsecond tick count of the 1970 epoch (`datetime(1970,1,1)` relative
to `datetime.min`). -/
def epochTicks : ℤ := 62135596800000000

/-- `datetime.timestamp()`: seconds since the 1970 epoch, as a float
(modelled as a rational). -/
def timestamp (t : DateTime) : ℚ :=
  ((t : ℚ) - (epochTicks : ℚ)) / 1000000

/-- Python truthiness of a datetime object: always true. -/
def datetimeTruthy (_ : DateTime) : Bool := true

/-- `datetime.isoformat()`, modelled as an abstract injective encoding into
strings that keeps the two properties the dict round-trip relies on: the
encoding of a datetime is never the empty string, and `fromisoformat` is its
left inverse. -/
def isoformat (t : DateTime) : String :=
  String.mk (List.replicate (t + 1) 'x')

/-- `datetime.fromisoformat()`, the left inverse of `isoformat`. -/
def fromisoformat (s : String) : DateTime :=
  s.length - 1

/-- `JobPosting` (models/job.py): frozen pydantic model.  `url` is the
already-normalized URL string (pydantic's `HttpUrl` normalization is
idempotent, so re-validating `str(self.url)` is the identity). -/
structure JobPosting where
  id : String
  title : String
  company : String
  location : String
  url : String
  posted_at : Option DateTime := none
  description_snippet : Option String := none
  salary : Option String := none
  is_remote : Bool := false
  applicants_count : Option String := none
  scraped_at : DateTime
deriving DecidableEq, Repr

/-- A value of the serialized dict `dict[str, str | bool | None]`. -/
inductive DVal where
  | s (v : String)
  | b (v : Bool)
  | nil
deriving DecidableEq, Repr

/-- Python truthiness of a dict value: non-empty string, true boolean;
`None` is falsy. -/
def truthy : DVal → Bool
  | .s v => v ≠ ""
  | .b v => v
  | .nil => false

/-- Python `str(x)` on a dict value. -/
def pyStr : DVal → String
  | .s v => v
  | .b true => "True"
  | .b false => "False"
  | .nil => "None"

/-- `data.get(k)`: `None` when the key is absent.  (For the keys accessed
with `data[k]`, the serialized dicts under consideration always contain the
key, so the same lookup models them.) -/
def dget (data : List (String × DVal)) (k : String) : DVal :=
  (data.lookup k).getD .nil

/-- `data.get(k, default)`. -/
def dgetD (data : List (String × DVal)) (k : String) (dflt : DVal) : DVal :=
  (data.lookup k).getD dflt

/-- `_parse_bool` (models/job.py): `None` is false, booleans pass through,
strings are matched case-insensitively against the truthy/falsy sets, and
any other string raises `ValueError` (modelled as `none`).  The int branch
cannot occur for values of `dict[str, str | bool | None]`. -/
def parseBool : DVal → Option Bool
  | .nil => some false
  | .b v => some v
  | .s v =>
    let lower := String.mk (pyLower v)
    if lower ∈ ["true", "yes", "1"] then some true
    else if lower ∈ ["false", "no", "0", ""] then some false
    else none

/-- Serialization of an optional string field: `None` stays `None`. -/
def optDVal : Option String → DVal
  | some v => .s v
  | none => .nil

/-- Serialization of the optional posted timestamp:
`self.posted_at.isoformat() if self.posted_at else None`. -/
def postedDVal : Option DateTime → DVal
  | some t => .s (isoformat t)
  | none => .nil

/-- `JobPosting.to_dict`: serialize every field; datetimes via `isoformat`,
absent optionals as `None`. -/
def JobPosting.to_dict (j : JobPosting) : List (String × DVal) :=
  [ ("id", .s j.id)
  , ("title", .s j.title)
  , ("company", .s j.company)
  , ("location", .s j.location)
  , ("url", .s j.url)
  , ("posted_at", postedDVal j.posted_at)
  , ("description_snippet", optDVal j.description_snippet)
  , ("salary", optDVal j.salary)
  , ("is_remote", .b j.is_remote)
  , ("applicants_count", optDVal j.applicants_count)
  , ("scraped_at", .s (isoformat j.scraped_at)) ]

/-- `JobPosting.from_dict`: rebuild a posting from a serialized dict.
`now` is the `datetime.now()` used when `scraped_at` is missing or falsy;
a `ValueError` from `_parse_bool` is modelled as `none`. -/
def JobPosting.from_dict (now : DateTime) (data : List (String × DVal)) :
    Option JobPosting :=
  let posted_at : Option DateTime :=
    if truthy (dget data "posted_at") then
      some (fromisoformat (pyStr (dget data "posted_at")))
    else none
  let scraped_at : DateTime :=
    if truthy (dget data "scraped_at") then
      fromisoformat (pyStr (dget data "scraped_at"))
    else now
  match parseBool (dgetD data "is_remote" (.b false)) with
  | none => none
  | some is_remote =>
    some
      { id := pyStr (dget data "id")
        title := pyStr (dget data "title")
        company := pyStr (dget data "company")
        location := pyStr (dget data "location")
        url := pyStr (dget data "url")
        posted_at := posted_at
        description_snippet :=
          if truthy (dget data "description_snippet") then
            some (pyStr (dget data "description_snippet"))
          else none
        salary :=
          if truthy (dget data "salary") then
            some (pyStr (dget data "salary"))
          else none
        is_remote := is_remote
        applicants_count :=
          if truthy (dget data "applicants_count") then
            some (pyStr (dget data "applicants_count"))
          else none
        scraped_at := scraped_at }

/-- The loop body of `HTMLParser.parse_jobs`: walk the parsed cards (each
card either yields a posting or `None` from `_parse_job_card`), keep a
posting only when its id has not been seen, record seen ids. -/
def parseJobsGo : List (Option JobPosting) → List String → List JobPosting
  | [], _ => []
  | none :: cards, seen => parseJobsGo cards seen
  | some j :: cards, seen =>
    if j.id ∈ seen then parseJobsGo cards seen
    else j :: parseJobsGo cards (j.id :: seen)

/-- `HTMLParser.parse_jobs`, starting from an empty seen-set. -/
def parse_jobs (cards : List (Option JobPosting)) : List JobPosting :=
  parseJobsGo cards []

/-- The sort key of `LinkedInClient.search`:
`(j.posted_at or j.scraped_at).timestamp() if (j.posted_at or j.scraped_at)
else 0.0`.  Since `scraped_at` is a mandatory datetime and Python datetimes
are always truthy, the `else` branch is unreachable, but it is kept
faithfully. -/
def sortKey (j : JobPosting) : ℚ :=
  if datetimeTruthy (j.posted_at.getD j.scraped_at) then
    timestamp (j.posted_at.getD j.scraped_at)
  else 0

/-- The tail of `LinkedInClient.search`: stable-sort the accumulated jobs by
`sortKey` descending (Python's stable `list.sort` with `reverse=True`,
modelled by the stable `mergeSort`), then slice to `max_results`. -/
def searchSortTruncate (c : SearchCriteria) (all_jobs : List JobPosting) :
    List JobPosting :=
  (all_jobs.mergeSort (fun a b => decide (sortKey b ≤ sortKey a))).take
    c.max_results

/-- One upstream response in `_fetch_page`: a successfully parsed page, an
HTTP status error, or a transport error. -/
inductive UpstreamResp where
  | success (jobs : List JobPosting)
  | httpError (code : ℕ)
  | transportError
deriving DecidableEq, Repr

/-- The `for attempt in range(max_retries)` loop of
`LinkedInClient._fetch_page`.  `fuel` is the number of attempts left; `idx`
indexes the next upstream response (one request per loop iteration — the 429
branch's `continue` advances the loop variable like any other iteration).
On success the page is parsed and `record_success` runs; a 429 triggers
`increase_backoff` and a fresh `acquire()` (identity on the modelled state);
other HTTP errors and transport errors just continue.  `none` models the
final `RuntimeError` once the budget is exhausted. -/
def fetchPageGo (upstream : ℕ → UpstreamResp) :
    ℕ → ℕ → RLState → Option (List JobPosting) × RLState
  | 0, _, s => (none, s)
  | fuel + 1, idx, s =>
    match upstream idx with
    | .success jobs => (some jobs, record_success s)
    | .httpError code =>
      if code = 429 then fetchPageGo upstream fuel (idx + 1) (increase_backoff s)
      else fetchPageGo upstream fuel (idx + 1) s
    | .transportError => fetchPageGo upstream fuel (idx + 1) s

/-- `LinkedInClient._fetch_page` for one page: run the retry loop with the
full attempt budget. -/
def fetchPage (max_retries : ℕ) (upstream : ℕ → UpstreamResp) (s : RLState) :
    Option (List JobPosting) × RLState :=
  fetchPageGo upstream max_retries 0 s

/-- A concrete posting used in closed witnesses and counterexamples. -/
def sampleJob : JobPosting :=
  { id := "1", title := "t", company := "c", location := "l", url := "u"
    scraped_at := 0 }

/-- The pacing invariant of C9: the configuration fields are constant and the
current delay stays within `[p1, p3]`. -/
def PacingInv (p1 p2 p3 : ℚ) (s : RLState) : Prop :=
  s.min_delay = p1 ∧ s.backoff_multiplier = p2 ∧ s.max_delay = p3 ∧
  p1 ≤ s.current_delay ∧ s.current_delay ≤ p3

/-- A posting sharing `sampleJob`'s identifier but with different fields. -/
def sampleJobDup : JobPosting :=
  { sampleJob with title := "second occurrence" }

/-- A posting with a distinct identifier. -/
def sampleJobOther : JobPosting :=
  { sampleJob with id := "2", title := "other" }

theorem increase_backoff_min_delay (s : RLState) :
    (increase_backoff s).min_delay = s.min_delay := rfl

theorem increase_backoff_max_delay (s : RLState) :
    (increase_backoff s).max_delay = s.max_delay := rfl

theorem increase_backoff_multiplier (s : RLState) :
    (increase_backoff s).backoff_multiplier = s.backoff_multiplier := rfl

theorem record_success_min_delay (s : RLState) :
    (record_success s).min_delay = s.min_delay := by
  unfold record_success reset_backoff
  dsimp only
  split <;> rfl

theorem record_success_max_delay (s : RLState) :
    (record_success s).max_delay = s.max_delay := by
  unfold record_success reset_backoff
  dsimp only
  split <;> rfl

theorem record_success_multiplier (s : RLState) :
    (record_success s).backoff_multiplier = s.backoff_multiplier := by
  unfold record_success reset_backoff
  dsimp only
  split <;> rfl

theorem iterate_increase_max_delay (s : RLState) (K : ℕ) :
    (increase_backoff^[K] s).max_delay = s.max_delay := by
  induction K with
  | zero => rfl
  | succ K ih => rw [Function.iterate_succ_apply', increase_backoff_max_delay, ih]

theorem iterate_increase_multiplier (s : RLState) (K : ℕ) :
    (increase_backoff^[K] s).backoff_multiplier = s.backoff_multiplier := by
  induction K with
  | zero => rfl
  | succ K ih => rw [Function.iterate_succ_apply', increase_backoff_multiplier, ih]

theorem min_min_mul (a C M : ℚ) (hM : 1 ≤ M) (hC : 0 ≤ C) :
    min (min a C * M) C = min (a * M) C := by
  rcases le_total a C with h | h
  · rw [min_eq_left h]
  · rw [min_eq_right h]
    have hCM : C ≤ C * M := le_mul_of_one_le_right hC hM
    rw [min_eq_right hCM]
    have haM : C ≤ a * M :=
      le_trans hCM (mul_le_mul_of_nonneg_right h (by linarith))
    rw [min_eq_right haM]

/-- C3: after `K` consecutive `increase_backoff()` calls from a state with
delay `D0 ≥ 0`, multiplier `M ≥ 1` and cap `C ≥ D0`, the delay equals
`min (D0 * M ^ K) C`, and for `K ≥ 1` the consecutive-success counter is
zero. -/
theorem backoff_delay_formula (s : RLState) (K : ℕ)
    (hM : 1 ≤ s.backoff_multiplier) (h0 : 0 ≤ s.current_delay)
    (hC : s.current_delay ≤ s.max_delay) :
    (increase_backoff^[K] s).current_delay
      = min (s.current_delay * s.backoff_multiplier ^ K) s.max_delay ∧
    (1 ≤ K → (increase_backoff^[K] s).consecutive_successes = 0) := by
  have hC0 : 0 ≤ s.max_delay := le_trans h0 hC
  constructor
  · induction K with
    | zero => simp [min_eq_left hC]
    | succ K ih =>
      rw [Function.iterate_succ_apply']
      show min ((increase_backoff^[K] s).current_delay *
          (increase_backoff^[K] s).backoff_multiplier)
          (increase_backoff^[K] s).max_delay = _
      rw [ih, iterate_increase_multiplier, iterate_increase_max_delay,
        min_min_mul _ _ _ hM hC0, mul_assoc, ← pow_succ]
  · intro hK
    obtain ⟨K', rfl⟩ := Nat.exists_eq_add_of_le hK
    rw [Nat.add_comm, Function.iterate_succ_apply']
    rfl

/-- Witness for `backoff_delay_formula` at a concrete limiter and `K = 3`. -/
theorem backoff_delay_formula_witness :
    (increase_backoff^[3] (mkRateLimiter 1 2 30 5)).current_delay = 8 ∧
    (increase_backoff^[3] (mkRateLimiter 1 2 30 5)).consecutive_successes = 0 := by
  have h := backoff_delay_formula (mkRateLimiter 1 2 30 5) 3
    (by norm_num [mkRateLimiter]) (by norm_num [mkRateLimiter])
    (by norm_num [mkRateLimiter])
  refine ⟨?_, h.2 (by norm_num)⟩
  rw [h.1]
  norm_num [mkRateLimiter]

theorem applyOp_pacing_inv (p1 p2 p3 : ℚ) (h0 : 0 ≤ p1) (h1 : p1 ≤ p3)
    (h2 : 1 ≤ p2) (s : RLState) (op : RLOp) (hs : PacingInv p1 p2 p3 s) :
    PacingInv p1 p2 p3 (applyOp s op) := by
  obtain ⟨e1, e2, e3, l1, l2⟩ := hs
  cases op
  case acquire => exact ⟨e1, e2, e3, l1, l2⟩
  case increase =>
    refine ⟨e1, e2, e3, ?_, ?_⟩
    · show p1 ≤ min (s.current_delay * s.backoff_multiplier) s.max_delay
      rw [e2, e3]
      have hd0 : 0 ≤ s.current_delay := le_trans h0 l1
      have hup : s.current_delay ≤ s.current_delay * p2 :=
        le_mul_of_one_le_right hd0 h2
      exact le_min (le_trans l1 hup) h1
    · show min (s.current_delay * s.backoff_multiplier) s.max_delay ≤ p3
      rw [e3]
      exact min_le_right _ _
  case record =>
    show PacingInv p1 p2 p3 (record_success s)
    unfold record_success reset_backoff
    dsimp only
    split
    · exact ⟨e1, e2, e3, le_of_eq e1.symm, e1 ▸ h1⟩
    · exact ⟨e1, e2, e3, l1, l2⟩
  case reset =>
    refine ⟨e1, e2, e3, ?_, ?_⟩
    · show p1 ≤ s.min_delay
      exact le_of_eq e1.symm
    · show s.min_delay ≤ p3
      rw [e1]
      exact h1

theorem applyOps_pacing_inv (p1 p2 p3 : ℚ) (h0 : 0 ≤ p1) (h1 : p1 ≤ p3)
    (h2 : 1 ≤ p2) (s : RLState) (ops : List RLOp)
    (hs : PacingInv p1 p2 p3 s) : PacingInv p1 p2 p3 (applyOps s ops) := by
  induction ops generalizing s with
  | nil => exact hs
  | cons op ops ih =>
    exact ih (applyOp s op) (applyOp_pacing_inv p1 p2 p3 h0 h1 h2 s op hs)

/-- C9: starting from a limiter constructed with `0 ≤ min ≤ max` and
multiplier `≥ 1`, the current delay stays in `[min, max]` (hence is never
negative) after every sequence of operations. -/
theorem pacing_delay_invariant (p1 p2 p3 : ℚ) (r : ℤ) (ops : List RLOp)
    (h0 : 0 ≤ p1) (h1 : p1 ≤ p3) (h2 : 1 ≤ p2) :
    p1 ≤ (applyOps (mkRateLimiter p1 p2 p3 r) ops).current_delay ∧
    (applyOps (mkRateLimiter p1 p2 p3 r) ops).current_delay ≤ p3 ∧
    0 ≤ (applyOps (mkRateLimiter p1 p2 p3 r) ops).current_delay := by
  have hinit : PacingInv p1 p2 p3 (mkRateLimiter p1 p2 p3 r) :=
    ⟨rfl, rfl, rfl, le_refl _, h1⟩
  obtain ⟨-, -, -, l1, l2⟩ :=
    applyOps_pacing_inv p1 p2 p3 h0 h1 h2 _ ops hinit
  exact ⟨l1, l2, le_trans h0 l1⟩

/-- Witness for `pacing_delay_invariant` at a concrete limiter and a concrete
operation sequence. -/
theorem pacing_delay_invariant_witness :
    1 ≤ (applyOps (mkRateLimiter 1 2 30 5)
        [.increase, .record, .acquire, .increase]).current_delay ∧
    (applyOps (mkRateLimiter 1 2 30 5)
        [.increase, .record, .acquire, .increase]).current_delay ≤ 30 ∧
    0 ≤ (applyOps (mkRateLimiter 1 2 30 5)
        [.increase, .record, .acquire, .increase]).current_delay :=
  pacing_delay_invariant 1 2 30 5 [.increase, .record, .acquire, .increase]
    (by norm_num) (by norm_num) (by norm_num)

theorem mod_succ_eq (k t : ℕ) (ht : 0 < t) :
    (k + 1) % t = if k % t + 1 = t then 0 else k % t + 1 := by
  have hlt : k % t < t := Nat.mod_lt _ ht
  rw [Nat.add_mod]
  rcases Nat.lt_or_ge 1 t with h | h
  · have h1 : 1 % t = 1 := Nat.mod_eq_of_lt h
    rw [h1]
    by_cases he : k % t + 1 = t
    · simp [he, Nat.mod_self]
    · have hlt' : k % t + 1 < t := by omega
      simp [he, Nat.mod_eq_of_lt hlt']
  · have ht1 : t = 1 := by omega
    subst ht1
    simp [Nat.mod_one]

/-- C7 (amended): starting from a state whose success counter is zero (any
state reached right after a backoff or reset), `k` consecutive
`record_success()` calls leave the configuration unchanged, set the delay to
the configured minimum once `k` reaches the threshold (and leave it unchanged
below the threshold), and leave the counter at `k mod threshold`. -/
theorem record_success_formula (s : RLState) (k : ℕ)
    (h0 : s.consecutive_successes = 0) (ht : 1 ≤ s.reset_after) :
    record_success^[k] s =
      { s with
        current_delay :=
          if k < s.reset_after.toNat then s.current_delay else s.min_delay
        consecutive_successes := ((k % s.reset_after.toNat : ℕ) : ℤ) } := by
  obtain ⟨m, bm, mx, ra, cd, cs⟩ := s
  dsimp only at h0 ht ⊢
  subst h0
  have htpos : 0 < ra.toNat := by omega
  induction k with
  | zero =>
    rw [Function.iterate_zero_apply]
    have h1 : 0 % ra.toNat = 0 := Nat.zero_mod _
    rw [if_pos htpos, h1]
    rfl
  | succ k ih =>
    rw [Function.iterate_succ_apply', ih]
    unfold record_success reset_backoff
    dsimp only
    have hlt : k % ra.toNat < ra.toNat := Nat.mod_lt _ htpos
    have hmod := mod_succ_eq k ra.toNat htpos
    split
    case isTrue hge =>
      -- the incremented counter reached the threshold: reset
      have heq : k % ra.toNat + 1 = ra.toNat := by omega
      have hk1 : ¬ (k + 1 < ra.toNat) := by
        by_cases hk : k < ra.toNat
        · have : k % ra.toNat = k := Nat.mod_eq_of_lt hk
          omega
        · omega
      rw [hmod, if_pos heq, if_neg hk1]
      rfl
    case isFalse hge =>
      -- below the threshold: only the counter advances
      have hne : ¬ (k % ra.toNat + 1 = ra.toNat) := by omega
      rw [hmod, if_neg hne]
      simp only [RLState.mk.injEq, true_and, and_true, Nat.cast_add,
        Nat.cast_one]
      by_cases hk1 : k + 1 < ra.toNat
      · rw [if_pos (by omega : k < ra.toNat), if_pos hk1]
      · by_cases hk : k < ra.toNat
        · exfalso
          have : k % ra.toNat = k := Nat.mod_eq_of_lt hk
          omega
        · rw [if_neg hk, if_neg hk1]

/-- Witness for `record_success_formula`: threshold 2, three successes after a
backoff — the delay is back at the minimum and the counter is `3 mod 2 = 1`. -/
theorem record_success_formula_witness :
    record_success^[3] (increase_backoff (mkRateLimiter 1 2 30 2)) =
      ⟨1, 2, 30, 2, 1, 1⟩ := by
  rw [record_success_formula (increase_backoff (mkRateLimiter 1 2 30 2)) 3
    (by decide) (by decide)]
  decide

/-- C7 counterexample: with threshold 2, after a backoff and `3 ≥ 2`
consecutive successes the delay has returned to the minimum but the
consecutive-success counter is `1`, not zero. -/
theorem recovery_counter_nonzero_counterexample :
    (mkRateLimiter 1 2 30 2).reset_after ≤ 3 ∧
    (record_success^[3] (increase_backoff (mkRateLimiter 1 2 30 2))).current_delay
      = (mkRateLimiter 1 2 30 2).min_delay ∧
    (record_success^[3] (increase_backoff (mkRateLimiter 1 2 30 2))).consecutive_successes
      = 1 := by
  decide

/-- C6 (code bug): `RateLimiter.__init__` performs no validation, so every
invalid parameter set from the spec (negative minimum delay, multiplier below
one, maximum below minimum, negative threshold) constructs successfully —
contradicting the spec and the repository's own tests, which expect a
`ValueError` in each of these cases. -/
theorem rate_limiter_init_accepts_invalid_params :
    rateLimiterInit (-1) 2 30 5 = .ok (mkRateLimiter (-1) 2 30 5) ∧
    rateLimiterInit (3/2) (1/2) 30 5 = .ok (mkRateLimiter (3/2) (1/2) 30 5) ∧
    rateLimiterInit 5 2 1 5 = .ok (mkRateLimiter 5 2 1 5) ∧
    rateLimiterInit (3/2) 2 30 (-1) = .ok (mkRateLimiter (3/2) 2 30 (-1)) ∧
    (mkRateLimiter (-1) 2 30 5).current_delay = -1 :=
  ⟨rfl, rfl, rfl, rfl, rfl⟩

theorem string_ne_empty_of_length_pos {s : String} (h : 0 < s.length) :
    s ≠ "" := by
  intro he
  rw [he] at h
  exact absurd h (by decide)

theorem joinComma_ne_empty (l : List String) (hne : l ≠ [])
    (hall : ∀ a ∈ l, 0 < a.length) : joinComma l ≠ "" := by
  match l, hne with
  | [a], _ =>
    exact string_ne_empty_of_length_pos (hall a (List.mem_singleton.mpr rfl))
  | a :: b :: rest, _ =>
    apply string_ne_empty_of_length_pos
    show 0 < (a ++ "," ++ joinComma (b :: rest)).length
    rw [String.length_append, String.length_append]
    have := hall a (List.mem_cons_self a _)
    omega

theorem workModel_value_length (w : WorkModel) : 0 < w.value.length := by
  cases w <;> decide

theorem jobType_value_length (t : JobType) : 0 < t.value.length := by
  cases t <;> decide

theorem mem_ite_singleton {α : Type} {P : Prop} [Decidable P] {x a : α}
    (h : a ∈ (if P then [x] else ([] : List α))) : P ∧ a = x := by
  rw [List.mem_ite_nil_right] at h
  exact ⟨h.1, List.mem_singleton.mp h.2⟩

/-- C8: for criteria with a non-empty keyword string (the spec's validity
requirement), `to_params` always emits the keyword key, never emits a key for
an unset dimension, and never emits an empty value. -/
theorem to_params_spec (c : SearchCriteria) (hk : c.keywords ≠ "") :
    ("keywords", c.keywords) ∈ c.to_params ∧
    (c.location = "" → "location" ∉ c.to_params.map Prod.fst) ∧
    (c.time_filter = .anyTime → "f_TPR" ∉ c.to_params.map Prod.fst) ∧
    (c.work_models = [] → "f_WT" ∉ c.to_params.map Prod.fst) ∧
    (c.job_types = [] → "f_JT" ∉ c.to_params.map Prod.fst) ∧
    (∀ kv ∈ c.to_params, kv.2 ≠ "") := by
  refine ⟨?_, ?_, ?_, ?_, ?_, ?_⟩
  · simp [SearchCriteria.to_params]
  · intro h
    simp [SearchCriteria.to_params, h, List.mem_ite_nil_right]
  · intro h
    simp [SearchCriteria.to_params, h, List.mem_ite_nil_right]
  · intro h
    simp [SearchCriteria.to_params, h, List.mem_ite_nil_right]
  · intro h
    simp [SearchCriteria.to_params, h, List.mem_ite_nil_right]
  · intro kv hkv
    unfold SearchCriteria.to_params at hkv
    simp only [List.append_assoc, List.mem_append, List.mem_singleton] at hkv
    rcases hkv with rfl | hkv | hkv | hkv | hkv
    · exact hk
    · obtain ⟨hP, rfl⟩ := mem_ite_singleton hkv
      exact hP
    · obtain ⟨hP, rfl⟩ := mem_ite_singleton hkv
      revert hP
      cases c.time_filter <;> intro hP <;>
        first
          | exact absurd rfl hP
          | decide
    · obtain ⟨hP, rfl⟩ := mem_ite_singleton hkv
      refine joinComma_ne_empty _ ?_ ?_
      · simpa [List.map_eq_nil_iff] using hP
      · intro a ha
        obtain ⟨w, -, rfl⟩ := List.mem_map.mp ha
        exact workModel_value_length w
    · obtain ⟨hP, rfl⟩ := mem_ite_singleton hkv
      refine joinComma_ne_empty _ ?_ ?_
      · simpa [List.map_eq_nil_iff] using hP
      · intro a ha
        obtain ⟨t, -, rfl⟩ := List.mem_map.mp ha
        exact jobType_value_length t

/-- Witness for `to_params_spec` at concrete criteria. -/
theorem to_params_spec_witness :
    ("keywords", "python") ∈
      (SearchCriteria.mk "python" "" .anyTime [] [] 100).to_params ∧
    "location" ∉
      ((SearchCriteria.mk "python" "" .anyTime [] [] 100).to_params.map
        Prod.fst) ∧
    "f_TPR" ∉
      ((SearchCriteria.mk "python" "" .anyTime [] [] 100).to_params.map
        Prod.fst) := by
  have h := to_params_spec (SearchCriteria.mk "python" "" .anyTime [] [] 100)
    (by decide)
  exact ⟨h.1, h.2.1 rfl, h.2.2.1 rfl⟩

/-- C2: remote-flag resolution.  Rule (a): criteria whose work-model list is
exactly `[remote]` force `remote = true` regardless of location text or
badge.  Otherwise — in particular for `[remote, hybrid]` — the result is the
location-substring check, else the badge, else false. -/
theorem check_remote_priority (c : SearchCriteria) (loc : String)
    (badge : Bool) :
    (c.work_models = [WorkModel.remote] →
      check_remote (some c) loc badge = true) ∧
    (c.work_models ≠ [WorkModel.remote] →
      check_remote (some c) loc badge =
        (hasSub "remote".data (pyLower loc) || badge)) ∧
    (c.work_models = [WorkModel.remote, WorkModel.hybrid] →
      check_remote (some c) loc badge =
        (hasSub "remote".data (pyLower loc) || badge)) := by
  refine ⟨?_, ?_, ?_⟩
  · intro h
    simp [check_remote, criteriaRemoteOnly, h]
  · intro h
    have hc : criteriaRemoteOnly (some c) = false := by
      simp [criteriaRemoteOnly, h]
    simp only [check_remote, hc, Bool.false_eq_true, if_false]
    cases hfs : hasSub "remote".data (pyLower loc) <;> cases badge <;>
      simp [hfs]
  · intro h
    have hc : criteriaRemoteOnly (some c) = false := by
      simp [criteriaRemoteOnly, h]
    simp only [check_remote, hc, Bool.false_eq_true, if_false]
    cases hfs : hasSub "remote".data (pyLower loc) <;> cases badge <;>
      simp [hfs]

/-- Witness for `check_remote_priority` at concrete criteria, locations and
badges: remote-only criteria force `true` on a non-remote location; with
`[remote, hybrid]` the same location resolves `false`, while a location
containing "Remote" resolves `true`. -/
theorem check_remote_priority_witness :
    check_remote (some (SearchCriteria.mk "py" "" .pastWeek [.remote] [] 100))
      "Paris, France" false = true ∧
    check_remote
      (some (SearchCriteria.mk "py" "" .pastWeek [.remote, .hybrid] [] 100))
      "Paris, France" false = false ∧
    check_remote
      (some (SearchCriteria.mk "py" "" .pastWeek [.remote, .hybrid] [] 100))
      "Remote - EMEA" false = true := by
  refine ⟨?_, ?_, ?_⟩
  · exact (check_remote_priority _ "Paris, France" false).1 rfl
  · rw [(check_remote_priority _ "Paris, France" false).2.2 rfl]
    decide
  · rw [(check_remote_priority _ "Remote - EMEA" false).2.2 rfl]
    decide

theorem iso_length (t : DateTime) : (isoformat t).length = t + 1 := by
  show (List.replicate (t + 1) 'x').length = t + 1
  simp

theorem fromiso_iso (t : DateTime) : fromisoformat (isoformat t) = t := by
  show (isoformat t).length - 1 = t
  rw [iso_length]
  omega

theorem iso_ne_empty (t : DateTime) : isoformat t ≠ "" := by
  apply string_ne_empty_of_length_pos
  rw [iso_length]
  omega

theorem dget_to_dict_id (j : JobPosting) :
    dget j.to_dict "id" = .s j.id := rfl

theorem dget_to_dict_title (j : JobPosting) :
    dget j.to_dict "title" = .s j.title := rfl

theorem dget_to_dict_company (j : JobPosting) :
    dget j.to_dict "company" = .s j.company := rfl

theorem dget_to_dict_location (j : JobPosting) :
    dget j.to_dict "location" = .s j.location := rfl

theorem dget_to_dict_url (j : JobPosting) :
    dget j.to_dict "url" = .s j.url := rfl

theorem dget_to_dict_posted (j : JobPosting) :
    dget j.to_dict "posted_at" = postedDVal j.posted_at := rfl

theorem dget_to_dict_desc (j : JobPosting) :
    dget j.to_dict "description_snippet" = optDVal j.description_snippet := rfl

theorem dget_to_dict_salary (j : JobPosting) :
    dget j.to_dict "salary" = optDVal j.salary := rfl

theorem dget_to_dict_applicants (j : JobPosting) :
    dget j.to_dict "applicants_count" = optDVal j.applicants_count := rfl

theorem dget_to_dict_scraped (j : JobPosting) :
    dget j.to_dict "scraped_at" = .s (isoformat j.scraped_at) := rfl

theorem dgetD_to_dict_remote (j : JobPosting) :
    dgetD j.to_dict "is_remote" (.b false) = .b j.is_remote := rfl

/-- The optional-string deserialization used by `from_dict` for the three
optional text fields: `None` stays `None`, a non-empty string round-trips,
and the empty string becomes `None`. -/
theorem from_dict_opt_field (o : Option String) :
    (if truthy (optDVal o) then some (pyStr (optDVal o)) else none) =
      (if o = some "" then none else o) := by
  match o with
  | none => rfl
  | some v =>
    by_cases hv : v = ""
    · subst hv
      rfl
    · simp [optDVal, truthy, pyStr, hv]

theorem from_dict_posted_field (o : Option DateTime) :
    (if truthy (postedDVal o)
      then some (fromisoformat (pyStr (postedDVal o)))
      else none) = o := by
  match o with
  | none => rfl
  | some t => simp [postedDVal, truthy, pyStr, iso_ne_empty t, fromiso_iso]

theorem from_dict_scraped_field (t now : DateTime) :
    (if truthy (DVal.s (isoformat t))
      then fromisoformat (pyStr (DVal.s (isoformat t)))
      else now) = t := by
  simp [truthy, pyStr, iso_ne_empty t, fromiso_iso]

/-- C10: dict round-trip of `JobPosting`.  When every optional text field is
`None` or non-empty, `from_dict (to_dict j)` returns `j` exactly; an
optional text field that is the empty string comes back as `None`. -/
theorem job_dict_roundtrip :
    (∀ (now : DateTime) (j : JobPosting),
      j.description_snippet ≠ some "" → j.salary ≠ some "" →
      j.applicants_count ≠ some "" →
      JobPosting.from_dict now j.to_dict = some j) ∧
    (∀ (now : DateTime) (j : JobPosting),
      (JobPosting.from_dict now j.to_dict).map JobPosting.description_snippet =
        some (if j.description_snippet = some "" then none
          else j.description_snippet)) ∧
    (∀ (now : DateTime) (j : JobPosting),
      (JobPosting.from_dict now j.to_dict).map JobPosting.salary =
        some (if j.salary = some "" then none else j.salary)) ∧
    (∀ (now : DateTime) (j : JobPosting),
      (JobPosting.from_dict now j.to_dict).map JobPosting.applicants_count =
        some (if j.applicants_count = some "" then none
          else j.applicants_count)) := by
  have hmain : ∀ (now : DateTime) (j : JobPosting),
      JobPosting.from_dict now j.to_dict = some
        { j with
          description_snippet :=
            if j.description_snippet = some "" then none
            else j.description_snippet
          salary := if j.salary = some "" then none else j.salary
          applicants_count :=
            if j.applicants_count = some "" then none
            else j.applicants_count } := by
    intro now j
    rw [JobPosting.from_dict, dget_to_dict_posted, dget_to_dict_scraped,
      dgetD_to_dict_remote, dget_to_dict_id, dget_to_dict_title,
      dget_to_dict_company, dget_to_dict_location, dget_to_dict_url,
      dget_to_dict_desc, dget_to_dict_salary, dget_to_dict_applicants]
    simp only [parseBool, from_dict_posted_field, from_dict_opt_field,
      from_dict_scraped_field]
    rfl
  refine ⟨?_, ?_, ?_, ?_⟩
  · intro now j h1 h2 h3
    rw [hmain now j]
    simp [if_neg h1, if_neg h2, if_neg h3]
  · intro now j
    rw [hmain now j]
    rfl
  · intro now j
    rw [hmain now j]
    rfl
  · intro now j
    rw [hmain now j]
    rfl

/-- Witness for `job_dict_roundtrip` at a concrete posting with both kinds of
optional fields. -/
theorem job_dict_roundtrip_witness :
    JobPosting.from_dict 7
      (JobPosting.to_dict
        { id := "42", title := "Dev", company := "Acme", location := "Paris"
          url := "https://example.com/42", posted_at := some 5
          description_snippet := some "great job", salary := none
          is_remote := true, applicants_count := some "25 applicants"
          scraped_at := 6 }) =
      some
        { id := "42", title := "Dev", company := "Acme", location := "Paris"
          url := "https://example.com/42", posted_at := some 5
          description_snippet := some "great job", salary := none
          is_remote := true, applicants_count := some "25 applicants"
          scraped_at := 6 } :=
  job_dict_roundtrip.1 7 _ (by decide) (by decide) (by decide)

theorem parseJobsGo_notin_seen (cards : List (Option JobPosting)) :
    ∀ (seen : List String), ∀ x ∈ parseJobsGo cards seen, x.id ∉ seen := by
  induction cards with
  | nil =>
    intro seen x hx
    simp [parseJobsGo] at hx
  | cons c cards ih =>
    intro seen x hx
    match c with
    | none => exact ih seen x hx
    | some j =>
      simp only [parseJobsGo] at hx
      by_cases h : j.id ∈ seen
      · rw [if_pos h] at hx
        exact ih seen x hx
      · rw [if_neg h] at hx
        rcases List.mem_cons.mp hx with rfl | hx'
        · exact h
        · intro hs
          exact ih (j.id :: seen) x hx' (List.mem_cons_of_mem _ hs)

theorem parseJobsGo_sublist (cards : List (Option JobPosting)) :
    ∀ (seen : List String),
      List.Sublist (parseJobsGo cards seen) (cards.filterMap id) := by
  induction cards with
  | nil =>
    intro seen
    simp [parseJobsGo]
  | cons c cards ih =>
    intro seen
    match c with
    | none =>
      show List.Sublist (parseJobsGo cards seen) (cards.filterMap id)
      exact ih seen
    | some j =>
      show List.Sublist (parseJobsGo (some j :: cards) seen)
        (j :: cards.filterMap id)
      simp only [parseJobsGo]
      by_cases h : j.id ∈ seen
      · rw [if_pos h]
        exact (ih seen).cons j
      · rw [if_neg h]
        exact (ih (j.id :: seen)).cons₂ j

theorem parseJobsGo_ids_nodup (cards : List (Option JobPosting)) :
    ∀ (seen : List String),
      ((parseJobsGo cards seen).map JobPosting.id).Nodup := by
  induction cards with
  | nil =>
    intro seen
    simp [parseJobsGo]
  | cons c cards ih =>
    intro seen
    match c with
    | none => exact ih seen
    | some j =>
      simp only [parseJobsGo]
      by_cases h : j.id ∈ seen
      · rw [if_pos h]
        exact ih seen
      · rw [if_neg h]
        simp only [List.map_cons, List.nodup_cons]
        refine ⟨?_, ih (j.id :: seen)⟩
        intro hmem
        obtain ⟨x, hx, hxid⟩ := List.mem_map.mp hmem
        apply parseJobsGo_notin_seen cards (j.id :: seen) x hx
        rw [hxid]
        exact List.mem_cons_self _ _

theorem parseJobsGo_find (cards : List (Option JobPosting)) :
    ∀ (seen : List String), ∀ x ∈ parseJobsGo cards seen,
      (cards.filterMap id).find? (fun y => y.id == x.id) = some x := by
  induction cards with
  | nil =>
    intro seen x hx
    simp [parseJobsGo] at hx
  | cons c cards ih =>
    intro seen x hx
    match c with
    | none =>
      show (cards.filterMap id).find? (fun y => y.id == x.id) = some x
      exact ih seen x hx
    | some j =>
      show (j :: cards.filterMap id).find? (fun y => y.id == x.id) = some x
      simp only [parseJobsGo] at hx
      by_cases h : j.id ∈ seen
      · rw [if_pos h] at hx
        have hni := parseJobsGo_notin_seen cards seen x hx
        have hne : (j.id == x.id) = false := by
          simp only [beq_eq_false_iff_ne, ne_eq]
          intro he
          apply hni
          rw [← he]
          exact h
        simp only [List.find?, hne]
        exact ih seen x hx
      · rw [if_neg h] at hx
        rcases List.mem_cons.mp hx with rfl | hx'
        · have hpa : (x.id == x.id) = true := by simp
          simp only [List.find?, hpa]
        · have hni := parseJobsGo_notin_seen cards (j.id :: seen) x hx'
          have hne : (j.id == x.id) = false := by
            simp only [beq_eq_false_iff_ne, ne_eq]
            intro he
            apply hni
            rw [← he]
            exact List.mem_cons_self _ _
          simp only [List.find?, hne]
          exact ih (j.id :: seen) x hx'

theorem parseJobsGo_cover (cards : List (Option JobPosting)) :
    ∀ (seen : List String), ∀ y ∈ cards.filterMap id,
      y.id ∈ seen ∨ ∃ x ∈ parseJobsGo cards seen, x.id = y.id := by
  induction cards with
  | nil =>
    intro seen y hy
    simp at hy
  | cons c cards ih =>
    intro seen y hy
    match c with
    | none =>
      show y.id ∈ seen ∨ ∃ x ∈ parseJobsGo cards seen, x.id = y.id
      exact ih seen y (by exact hy)
    | some j =>
      have hy2 : y ∈ j :: cards.filterMap id := hy
      simp only [parseJobsGo]
      by_cases h : j.id ∈ seen
      · rw [if_pos h]
        rcases List.mem_cons.mp hy2 with rfl | hyc
        · exact Or.inl h
        · rcases ih seen y hyc with hs | ⟨x, hx, he⟩
          · exact Or.inl hs
          · exact Or.inr ⟨x, hx, he⟩
      · rw [if_neg h]
        rcases List.mem_cons.mp hy2 with rfl | hyc
        · exact Or.inr ⟨y, List.mem_cons_self _ _, rfl⟩
        · rcases ih (j.id :: seen) y hyc with hs | ⟨x, hx, he⟩
          · rcases List.mem_cons.mp hs with he' | hs'
            · exact Or.inr ⟨j, List.mem_cons_self _ _, he'.symm⟩
            · exact Or.inl hs'
          · exact Or.inr ⟨x, List.mem_cons_of_mem _ hx, he⟩

/-- C5: extraction dedups by the extracted identifier with
first-occurrence-wins semantics while preserving document order: the output
is a sublist of the successfully parsed entries (hence order-preserving),
its identifiers are pairwise distinct, every retained record is the *first*
entry bearing its identifier, and every parsed identifier is represented. -/
theorem parse_jobs_dedup_spec (cards : List (Option JobPosting)) :
    List.Sublist (parse_jobs cards) (cards.filterMap id) ∧
    ((parse_jobs cards).map JobPosting.id).Nodup ∧
    (∀ x ∈ parse_jobs cards,
      (cards.filterMap id).find? (fun y => y.id == x.id) = some x) ∧
    (∀ y ∈ cards.filterMap id, ∃ x ∈ parse_jobs cards, x.id = y.id) := by
  refine ⟨parseJobsGo_sublist cards [], parseJobsGo_ids_nodup cards [],
    parseJobsGo_find cards [], ?_⟩
  intro y hy
  rcases parseJobsGo_cover cards [] y hy with hs | hx
  · simp at hs
  · exact hx

/-- Witness for `parse_jobs_dedup_spec` on a document with a duplicated
identifier: the duplicate is dropped, the first occurrence is retained. -/
theorem parse_jobs_dedup_spec_witness :
    parse_jobs [some sampleJob, none, some sampleJobOther, some sampleJobDup]
      = [sampleJob, sampleJobOther] ∧
    ([some sampleJob, none, some sampleJobOther,
        some sampleJobDup].filterMap id).find?
      (fun y => y.id == sampleJob.id) = some sampleJob := by
  constructor
  · decide
  · exact (parse_jobs_dedup_spec
      [some sampleJob, none, some sampleJobOther, some sampleJobDup]).2.2.1
      sampleJob (by decide)

/-- C4: `search` returns the accumulated records stably sorted by the
descending sort key — posted timestamp, falling back to the capture
timestamp when the posted one is absent (a record with neither cannot exist:
`scraped_at` is mandatory) — and truncated to at most `max_results`. -/
theorem search_sort_truncate_spec (c : SearchCriteria)
    (jobs : List JobPosting) :
    ∃ l : List JobPosting, l.Perm jobs ∧
      l.Pairwise (fun a b => sortKey b ≤ sortKey a) ∧
      searchSortTruncate c jobs = l.take c.max_results ∧
      (searchSortTruncate c jobs).length ≤ c.max_results := by
  have htrans : ∀ (a b d : JobPosting),
      (fun a b => decide (sortKey b ≤ sortKey a)) a b = true →
      (fun a b => decide (sortKey b ≤ sortKey a)) b d = true →
      (fun a b => decide (sortKey b ≤ sortKey a)) a d = true := by
    intro a b d hab hbd
    simp only [decide_eq_true_eq] at hab hbd ⊢
    exact le_trans hbd hab
  have htotal : ∀ (a b : JobPosting),
      ((fun a b => decide (sortKey b ≤ sortKey a)) a b
        || (fun a b => decide (sortKey b ≤ sortKey a)) b a) = true := by
    intro a b
    simp only [Bool.or_eq_true, decide_eq_true_eq]
    exact le_total (sortKey b) (sortKey a)
  refine ⟨jobs.mergeSort (fun a b => decide (sortKey b ≤ sortKey a)),
    List.mergeSort_perm _ _, ?_, rfl, ?_⟩
  · have h := @List.sorted_mergeSort _
      (fun a b => decide (sortKey b ≤ sortKey a)) htrans htotal jobs
    exact h.imp (fun hab => by simpa using hab)
  · show ((jobs.mergeSort
      (fun a b => decide (sortKey b ≤ sortKey a))).take c.max_results).length
        ≤ c.max_results
    rw [List.length_take]
    exact min_le_left _ _

/-- C1 (amended): in `_fetch_page`'s retry loop every non-success response —
a rate-limited one included — consumes one attempt slot.  A 429 triggers
`increase_backoff` (and a fresh `acquire`, identity on the modelled state)
and retries the same page with one slot fewer; a success returns the parsed
page after `record_success`; once the remaining responses are all
non-successes the budget runs out and the fetch fails. -/
theorem retry_loop_attempt_semantics :
    (∀ (u : ℕ → UpstreamResp) (n idx : ℕ) (s : RLState),
      u idx = .httpError 429 →
      fetchPageGo u (n + 1) idx s =
        fetchPageGo u n (idx + 1) (increase_backoff s)) ∧
    (∀ (u : ℕ → UpstreamResp) (n idx : ℕ) (s : RLState)
        (jobs : List JobPosting),
      u idx = .success jobs →
      fetchPageGo u (n + 1) idx s = (some jobs, record_success s)) ∧
    (∀ (u : ℕ → UpstreamResp) (n idx : ℕ) (s : RLState),
      (∀ i < n, ∀ jobs, u (idx + i) ≠ .success jobs) →
      (fetchPageGo u n idx s).1 = none) := by
  refine ⟨?_, ?_, ?_⟩
  · intro u n idx s h
    simp [fetchPageGo, h]
  · intro u n idx s jobs h
    simp [fetchPageGo, h]
  · intro u n
    induction n with
    | zero =>
      intro idx s h
      rfl
    | succ n ih =>
      intro idx s h
      have h0 : ∀ jobs, u idx ≠ .success jobs := by
        intro jobs
        have := h 0 (by omega) jobs
        simpa using this
      have hrest : ∀ i < n, ∀ jobs, u (idx + 1 + i) ≠ .success jobs := by
        intro i hi jobs
        rw [show idx + 1 + i = idx + (i + 1) by omega]
        exact h (i + 1) (by omega) jobs
      cases hu : u idx with
      | success jobs => exact absurd hu (h0 jobs)
      | httpError code =>
        simp only [fetchPageGo, hu]
        by_cases hc : code = 429
        · rw [if_pos hc]
          exact ih (idx + 1) (increase_backoff s) hrest
        · rw [if_neg hc]
          exact ih (idx + 1) s hrest
      | transportError =>
        simp only [fetchPageGo, hu]
        exact ih (idx + 1) s hrest

/-- Witness for `retry_loop_attempt_semantics` at concrete upstreams. -/
theorem retry_loop_attempt_semantics_witness :
    fetchPageGo (fun _ => .httpError 429) 3 0 (mkRateLimiter 1 2 30 5)
      = fetchPageGo (fun _ => .httpError 429) 2 1
          (increase_backoff (mkRateLimiter 1 2 30 5)) ∧
    fetchPageGo (fun _ => .success [sampleJob]) 3 0 (mkRateLimiter 1 2 30 5)
      = (some [sampleJob], record_success (mkRateLimiter 1 2 30 5)) ∧
    (fetchPageGo (fun _ => .transportError) 2 0 (mkRateLimiter 1 2 30 5)).1
      = none := by
  refine ⟨?_, ?_, ?_⟩
  · exact retry_loop_attempt_semantics.1 _ 2 0 _ rfl
  · exact retry_loop_attempt_semantics.2.1 _ 2 0 _ [sampleJob] rfl
  · refine retry_loop_attempt_semantics.2.2 _ 2 0 _ ?_
    intro i hi jobs h
    simp at h

/-- C1 counterexample: with the repository's default budget of 3 attempts,
three rate-limited responses exhaust the budget and the fetch fails, even
though the very next response would have been a success — a 429 therefore
does consume a retry-attempt slot, and rate-limited responses are not
retried indefinitely. -/
theorem rate_limit_retry_budget_counterexample :
    (fetchPage 3
      (fun i => if i < 3 then .httpError 429 else .success [sampleJob])
      (mkRateLimiter 1 2 30 5)).1 = none := by
  rfl

end LinkedScout
